import Mathlib

/-!
Verification of the Rotary encoder library (rotary.h / rotary.cpp).

The decoder is a table-driven state machine: `process` looks up
`ttable[state & 0xf][pinstate]` and returns `state & 0x30`.  The library is
compiled in one of two modes (`HALF_STEP` set in rotary.h selects the 6-row
half-step table; otherwise the 7-row full-step table is used).  Both tables
are embedded here, with suffix `H` for half-step and `F` for full-step.

The button helpers (`buttonPressedReleased`, `buttonPressedHeld`,
`readButton`) are embedded as pure functions over an explicit record of the
two mutable fields they touch (`buttonState`, `buttonTimer`); the pin level
and the millisecond clock are passed in as arguments.  Arduino `millis()`
returns a 32-bit unsigned long, so the elapsed-time computation
`millis() - buttonTimer` is modelled as subtraction modulo 2^32 (`wsub`).
-/

/-- Values returned by `process` (rotary.h): no complete step yet. -/
def DIR_NONE : Nat := 0x0

/-- Clockwise step flag (rotary.h). -/
def DIR_CW : Nat := 0x10

/-- Anti-clockwise step flag (rotary.h). -/
def DIR_CCW : Nat := 0x20

/-- Neutral start state, shared by both tables. -/
def R_START : Nat := 0x0

-- Half-step table state names (rotary.cpp, HALF_STEP branch).
def R_CCW_BEGIN_H : Nat := 0x1

def R_CW_BEGIN_H : Nat := 0x2

def R_START_M : Nat := 0x3

def R_CW_BEGIN_M : Nat := 0x4

def R_CCW_BEGIN_M : Nat := 0x5

/-- The half-step transition table (rotary.cpp lines 106-119).  Row = current
state's low nibble, column = 2-bit pin sample (00, 01, 10, 11). -/
def ttableH : List (List Nat) :=
  [ [R_START, R_CCW_BEGIN_H, R_CW_BEGIN_H, R_START_M],
    [R_START, R_CCW_BEGIN_H, R_START, R_START_M ||| DIR_CCW],
    [R_START, R_START, R_CW_BEGIN_H, R_START_M ||| DIR_CW],
    [R_START, R_CW_BEGIN_M, R_CCW_BEGIN_M, R_START_M],
    [R_START ||| DIR_CW, R_CW_BEGIN_M, R_START_M, R_START_M],
    [R_START ||| DIR_CCW, R_START_M, R_CCW_BEGIN_M, R_START_M] ]

-- Full-step table state names (rotary.cpp, non-HALF_STEP branch).
def R_CW_FINAL : Nat := 0x1

def R_CW_BEGIN_F : Nat := 0x2

def R_CW_NEXT : Nat := 0x3

def R_CCW_BEGIN_F : Nat := 0x4

def R_CCW_FINAL : Nat := 0x5

def R_CCW_NEXT : Nat := 0x6

/-- The full-step transition table (rotary.cpp lines 152-167). -/
def ttableF : List (List Nat) :=
  [ [R_START, R_CCW_BEGIN_F, R_CW_BEGIN_F, R_START],
    [R_START ||| DIR_CW, R_CW_FINAL, R_START, R_CW_NEXT],
    [R_START, R_START, R_CW_BEGIN_F, R_CW_NEXT],
    [R_START, R_CW_FINAL, R_CW_BEGIN_F, R_CW_NEXT],
    [R_START, R_CCW_BEGIN_F, R_START, R_CCW_NEXT],
    [R_START ||| DIR_CCW, R_START, R_CCW_FINAL, R_CCW_NEXT],
    [R_START, R_CCW_BEGIN_F, R_CCW_FINAL, R_CCW_NEXT] ]

/-- The low nibble of a stored state, as computed by `state & 0xf` in
`Rotary::process`. -/
def nib (s : Nat) : Nat := s &&& 0xf

/-- One table lookup `ttable[state & 0xf][pinstate]` in half-step mode:
the new value stored into `state`. -/
def stepH (s p : Nat) : Nat := (ttableH.getD (nib s) []).getD p 0

/-- One table lookup in full-step mode. -/
def stepF (s p : Nat) : Nat := (ttableF.getD (nib s) []).getD p 0

/-- `Rotary::process` in half-step mode: stores the new state and returns
`state & 0x30` (the emit bits).  Result is (new state, returned value). -/
def processH (s p : Nat) : Nat × Nat := (stepH s p, stepH s p &&& 0x30)

/-- `Rotary::process` in full-step mode. -/
def processF (s p : Nat) : Nat × Nat := (stepF s p, stepF s p &&& 0x30)

/-- Folding `process` over a list of pin samples (half-step): final state. -/
def runH (s : Nat) (l : List Nat) : Nat := l.foldl stepH s

/-- Folding `process` over a list of pin samples (full-step): final state. -/
def runF (s : Nat) (l : List Nat) : Nat := l.foldl stepF s

/-- The list of values returned by successive `process` calls (half-step). -/
def outputsH : Nat → List Nat → List Nat
  | _, [] => []
  | s, p :: l => (stepH s p &&& 0x30) :: outputsH (stepH s p) l

/-- The list of values returned by successive `process` calls (full-step). -/
def outputsF : Nat → List Nat → List Nat
  | _, [] => []
  | s, p :: l => (stepF s p &&& 0x30) :: outputsF (stepF s p) l

/-- All values the `state` member can ever hold in half-step mode: the
initial `R_START` together with every entry of `ttableH`. -/
def statesH : List Nat := [0x0, 0x1, 0x2, 0x3, 0x4, 0x5, 0x10, 0x13, 0x20, 0x23]

/-- All values the `state` member can ever hold in full-step mode. -/
def statesF : List Nat := [0x0, 0x1, 0x2, 0x3, 0x4, 0x5, 0x6, 0x10, 0x20]

/-- States reachable by the half-step decoder from construction (`state`
is initialised to `R_START` and only ever overwritten by `process` with a
2-bit pin sample). -/
inductive ReachableH : Nat → Prop where
  | start : ReachableH R_START
  | step : ∀ s p, ReachableH s → p < 4 → ReachableH (stepH s p)

/-- States reachable by the full-step decoder from construction. -/
inductive ReachableF : Nat → Prop where
  | start : ReachableF R_START
  | step : ∀ s p, ReachableF s → p < 4 → ReachableF (stepF s p)

-- Button constants (rotary.h).
def BUTTON_RESET : Nat := 0x00

def BUTTON_PRESSED : Nat := 0x01

def BUTTON_RELEASED : Nat := 0x10

def BUTTON_PRESSED_RELEASED : Nat := 0x11

/-- 2^32, the modulus of Arduino `unsigned long` arithmetic. -/
def M32 : Nat := 4294967296

/-- Unsigned 32-bit subtraction `a - b`, the computation performed by
`millis() - buttonTimer`. -/
def wsub (a b : Nat) : Nat := (a % M32 + (M32 - b % M32)) % M32

/-- The two mutable fields the button routines touch. -/
structure Btn where
  buttonState : Nat
  buttonTimer : Nat
  deriving DecidableEq, Repr

/-- `Rotary::buttonPressedReleased` (rotary.cpp lines 248-271).  `pinHigh`
is the value of `digitalRead(buttonPin)` (true = open line), `now` the value
of `millis()` (already reduced mod 2^32).  Returns (result, new fields). -/
def buttonPressedReleased (delay : Nat) (pinHigh : Bool) (now : Nat)
    (b : Btn) : Bool × Btn :=
  let b1 :=
    if b.buttonState = BUTTON_PRESSED then
      if wsub now b.buttonTimer > delay then
        if pinHigh then { b with buttonState := b.buttonState ||| BUTTON_RELEASED }
        else b
      else b
    else
      if !pinHigh then { buttonState := b.buttonState ||| BUTTON_PRESSED, buttonTimer := now }
      else b
  if b1.buttonState = BUTTON_PRESSED ||| BUTTON_RELEASED then
    (true, { b1 with buttonState := 0x00 })
  else (false, b1)

/-- `Rotary::buttonPressedHeld` (rotary.cpp lines 277-304). -/
def buttonPressedHeld (delay : Nat) (pinHigh : Bool) (now : Nat)
    (b : Btn) : Bool × Btn :=
  if !pinHigh then
    if b.buttonState ≠ BUTTON_PRESSED then
      (false, { buttonState := BUTTON_PRESSED, buttonTimer := now })
    else
      if wsub now b.buttonTimer > delay then
        (true, { b with buttonState := BUTTON_RESET })
      else (false, b)
  else
    if b.buttonState = BUTTON_PRESSED then
      (false, { b with buttonState := BUTTON_RESET })
    else (false, b)

/-- The full mutable state of a `Rotary` object (decoder state plus the
button fields). -/
structure RotaryState where
  state : Nat
  buttonState : Nat
  buttonTimer : Nat
  deriving DecidableEq, Repr

/-- `Rotary::readButton` (rotary.cpp lines 310-317): reads the line level
and returns a constant; it writes no member, so the state is returned
unchanged. -/
def readButton (r : RotaryState) (pinHigh : Bool) : Nat × RotaryState :=
  if pinHigh then (BUTTON_RELEASED, r) else (BUTTON_PRESSED, r)

/-- The (row, sample) pairs at which the half-step table emits a direction:
the canonical completions `R_CCW_BEGIN_H + 11`, `R_CW_BEGIN_H + 11`,
`R_CW_BEGIN_M + 00`, `R_CCW_BEGIN_M + 00`. -/
def compH : List (Nat × Nat) := [(0x1, 3), (0x2, 3), (0x4, 0), (0x5, 0)]

/-- The (row, sample) pairs at which the full-step table emits a direction. -/
def compF : List (Nat × Nat) := [(0x1, 0), (0x5, 0)]

/-- Legal (row, sample) pairs of the half-step machine: settled-state
self-loops, canonical advances out of the two settled states, begin-state
self-loops, and the four canonical completions.  Everything else is an
illegal jump (a skipped code or a reversal). -/
def legalH : List (Nat × Nat) :=
  [(0, 0), (0, 1), (0, 2), (1, 1), (1, 3), (2, 2), (2, 3),
   (3, 1), (3, 2), (3, 3), (4, 0), (4, 1), (5, 0), (5, 2)]

/-- Legal (row, sample) pairs of the full-step machine. -/
def legalF : List (Nat × Nat) :=
  [(0, 0), (0, 1), (0, 2), (1, 0), (1, 1), (2, 2), (2, 3), (3, 1), (3, 3),
   (4, 1), (4, 3), (5, 0), (5, 2), (6, 2), (6, 3)]

/-- Progress of a half-step row toward an emission: 0 at the two settled
rows (`R_START`, `R_START_M`), 1 at the four begin rows. -/
def progH : Nat → Nat
  | 0 => 0
  | 3 => 0
  | _ => 1

/-- Progress of a full-step row along the canonical path to an emission. -/
def progF : Nat → Nat
  | 0 => 0
  | 2 => 1
  | 4 => 1
  | 3 => 2
  | 6 => 2
  | 1 => 3
  | 5 => 3
  | _ => 0

/-- The canonical in-order chain of rows that must have been visited for the
machine to sit in a given half-step row. -/
def canonChainH : Nat → List Nat
  | 1 => [0, 1]
  | 2 => [0, 2]
  | 4 => [3, 4]
  | 5 => [3, 5]
  | 3 => [3]
  | _ => [0]

/-- The canonical in-order chain of rows that must have been visited for the
machine to sit in a given full-step row. -/
def canonChainF : Nat → List Nat
  | 2 => [0, 2]
  | 3 => [0, 2, 3]
  | 1 => [0, 2, 3, 1]
  | 4 => [0, 4]
  | 6 => [0, 4, 6]
  | 5 => [0, 4, 6, 5]
  | _ => [0]

/-- The sequence of rows (state nibbles) visited while feeding a sample
list to the half-step decoder, current state included. -/
def traceH : Nat → List Nat → List Nat
  | s, [] => [nib s]
  | s, p :: l => nib s :: traceH (stepH s p) l

/-- The sequence of rows visited by the full-step decoder. -/
def traceF : Nat → List Nat → List Nat
  | s, [] => [nib s]
  | s, p :: l => nib s :: traceF (stepF s p) l

/-- Ticks of `buttonPressedHeld` once per millisecond with the line closed
(pin low): `heldRunLow d n t b` calls it at times `t, t+1, ..., t+n-1`,
returning the outputs and the final fields. -/
def heldRunLow (delay : Nat) : Nat → Nat → Btn → List Bool × Btn
  | 0, _, b => ([], b)
  | n+1, t, b =>
    let r := buttonPressedHeld delay false t b
    let rest := heldRunLow delay n (t+1) r.2
    (r.1 :: rest.1, rest.2)

/-- Ticks of `buttonPressedReleased` once per millisecond in the C4
scenario: the line is closed (low) at times `t ≤ d` and open (high) at
times `t > d`.  `relRunScen d n t b` performs the calls at times
`t, ..., t+n-1`. -/
def relRunScen (d : Nat) : Nat → Nat → Btn → List Bool × Btn
  | 0, _, b => ([], b)
  | n+1, t, b =>
    let r := buttonPressedReleased d (decide (d < t)) t b
    let rest := relRunScen d n (t+1) r.2
    (r.1 :: rest.1, rest.2)

lemma nib_lt_sixteen (s : Nat) : nib s < 16 := Nat.lt_succ_of_le Nat.and_le_right

lemma chainH_step (s p : Nat) (hp : p < 4) :
    List.Sublist (canonChainH (nib (stepH s p))) (canonChainH (nib s) ++ [nib (stepH s p)]) := by
  have h16 : nib s < 16 := nib_lt_sixteen s
  rw [show stepH s p = (ttableH.getD (nib s) []).getD p 0 from rfl]
  generalize nib s = r at h16 ⊢
  interval_cases r <;> interval_cases p <;> decide

lemma chainF_step (s p : Nat) (hp : p < 4) :
    List.Sublist (canonChainF (nib (stepF s p))) (canonChainF (nib s) ++ [nib (stepF s p)]) := by
  have h16 : nib s < 16 := nib_lt_sixteen s
  rw [show stepF s p = (ttableF.getD (nib s) []).getD p 0 from rfl]
  generalize nib s = r at h16 ⊢
  interval_cases r <;> interval_cases p <;> decide

lemma traceH_inv : ∀ (l : List Nat) (s : Nat) (acc : List Nat),
    (∀ p ∈ l, p < 4) →
    List.Sublist (canonChainH (nib s)) (acc ++ [nib s]) →
    List.Sublist (canonChainH (nib (runH s l))) (acc ++ traceH s l) := by
  intro l
  induction l with
  | nil => intro s acc _ h; simpa [runH, traceH] using h
  | cons p l ih =>
    intro s acc hl h
    have hp : p < 4 := hl p (by simp)
    have hnext : List.Sublist (canonChainH (nib (stepH s p)))
        ((acc ++ [nib s]) ++ [nib (stepH s p)]) :=
      (chainH_step s p hp).trans (h.append (List.Sublist.refl _))
    have := ih (stepH s p) (acc ++ [nib s]) (fun q hq => hl q (by simp [hq])) hnext
    simpa [runH, traceH, List.foldl, List.append_assoc] using this

lemma traceF_inv : ∀ (l : List Nat) (s : Nat) (acc : List Nat),
    (∀ p ∈ l, p < 4) →
    List.Sublist (canonChainF (nib s)) (acc ++ [nib s]) →
    List.Sublist (canonChainF (nib (runF s l))) (acc ++ traceF s l) := by
  intro l
  induction l with
  | nil => intro s acc _ h; simpa [runF, traceF] using h
  | cons p l ih =>
    intro s acc hl h
    have hp : p < 4 := hl p (by simp)
    have hnext : List.Sublist (canonChainF (nib (stepF s p)))
        ((acc ++ [nib s]) ++ [nib (stepF s p)]) :=
      (chainF_step s p hp).trans (h.append (List.Sublist.refl _))
    have := ih (stepF s p) (acc ++ [nib s]) (fun q hq => hl q (by simp [hq])) hnext
    simpa [runF, traceF, List.foldl, List.append_assoc] using this

lemma statesH_closed : ∀ s ∈ statesH, ∀ p, p < 4 → stepH s p ∈ statesH := by decide

lemma statesF_closed : ∀ s ∈ statesF, ∀ p, p < 4 → stepF s p ∈ statesF := by decide

lemma reachableH_mem {s : Nat} (h : ReachableH s) : s ∈ statesH := by
  induction h with
  | start => decide
  | step t p _ hp ih => exact statesH_closed t ih p hp

lemma reachableF_mem {s : Nat} (h : ReachableF s) : s ∈ statesF := by
  induction h with
  | start => decide
  | step t p _ hp ih => exact statesF_closed t ih p hp

lemma runH_mem (l : List Nat) (hl : ∀ p ∈ l, p < 4) : runH R_START l ∈ statesH := by
  induction l using List.reverseRecOn with
  | nil => decide
  | append_singleton l p ih =>
    have hp : p < 4 := hl p (by simp)
    have hmem := ih (fun q hq => hl q (by simp [hq]))
    simpa [runH, List.foldl_append] using statesH_closed _ hmem p hp

lemma runF_mem (l : List Nat) (hl : ∀ p ∈ l, p < 4) : runF R_START l ∈ statesF := by
  induction l using List.reverseRecOn with
  | nil => decide
  | append_singleton l p ih =>
    have hp : p < 4 := hl p (by simp)
    have hmem := ih (fun q hq => hl q (by simp [hq]))
    simpa [runF, List.foldl_append] using statesF_closed _ hmem p hp

lemma wsub_sub_of_le {a b : Nat} (hb : b ≤ a) (ha : a < M32) : wsub a b = a - b := by
  simp only [wsub, M32] at ha ⊢
  omega

lemma wsub_wrap {t0 t1 : Nat} (h : t0 ≤ t1) (hd : t1 - t0 < M32) :
    wsub (t1 % M32) (t0 % M32) = t1 - t0 := by
  simp only [wsub, M32] at hd ⊢
  omega

lemma heldRunLow_add (delay : Nat) : ∀ (n m t : Nat) (b : Btn),
    heldRunLow delay (n + m) t b =
      ((heldRunLow delay n t b).1 ++ (heldRunLow delay m (t + n) (heldRunLow delay n t b).2).1,
       (heldRunLow delay m (t + n) (heldRunLow delay n t b).2).2)
  | 0, m, t, b => by simp [heldRunLow]
  | n+1, m, t, b => by
    have ih := heldRunLow_add delay n m (t+1) (buttonPressedHeld delay false t b).2
    rw [show n + 1 + m = (n + m) + 1 from by omega]
    simp only [heldRunLow, ih]
    rw [show t + (n + 1) = t + 1 + n from by omega]
    simp

lemma relRunScen_add (d : Nat) : ∀ (n m t : Nat) (b : Btn),
    relRunScen d (n + m) t b =
      ((relRunScen d n t b).1 ++ (relRunScen d m (t + n) (relRunScen d n t b).2).1,
       (relRunScen d m (t + n) (relRunScen d n t b).2).2)
  | 0, m, t, b => by simp [relRunScen]
  | n+1, m, t, b => by
    have ih := relRunScen_add d n m (t+1) (buttonPressedReleased d (decide (d < t)) t b).2
    rw [show n + 1 + m = (n + m) + 1 from by omega]
    simp only [relRunScen, ih]
    rw [show t + (n + 1) = t + 1 + n from by omega]
    simp

lemma held_false_phase (thr t0 : Nat) (hmod : t0 + thr < M32) :
    ∀ (k t : Nat), t0 ≤ t → t + k ≤ t0 + thr + 1 →
    heldRunLow thr k t ⟨BUTTON_PRESSED, t0⟩ = (List.replicate k false, ⟨BUTTON_PRESSED, t0⟩)
  | 0, t, _, _ => by simp [heldRunLow]
  | k+1, t, ht, hk => by
    have hw : wsub t t0 = t - t0 := wsub_sub_of_le ht (by omega)
    have hgt : ¬ (t - t0 > thr) := by omega
    have hstep : buttonPressedHeld thr false t ⟨BUTTON_PRESSED, t0⟩ =
        (false, ⟨BUTTON_PRESSED, t0⟩) := by
      simp [buttonPressedHeld, hw, hgt]
    have ih := held_false_phase thr t0 hmod k (t+1) (by omega) (by omega)
    simp [heldRunLow, hstep, ih, List.replicate_succ]

lemma rel_false_phase (d : Nat) (hmod : d < M32) :
    ∀ (k t : Nat), 1 ≤ t → t + k ≤ d + 1 →
    relRunScen d k t ⟨BUTTON_PRESSED, 0⟩ = (List.replicate k false, ⟨BUTTON_PRESSED, 0⟩)
  | 0, t, _, _ => by simp [relRunScen]
  | k+1, t, ht, hk => by
    have hw : wsub t 0 = t := by
      simpa using wsub_sub_of_le (Nat.zero_le t) (show t < M32 by omega)
    have hgt : ¬ (t > d) := by omega
    have hpin : ¬ (d < t) := by omega
    have hstep : buttonPressedReleased d (decide (d < t)) t ⟨BUTTON_PRESSED, 0⟩ =
        (false, ⟨BUTTON_PRESSED, 0⟩) := by
      simp [buttonPressedReleased, hw, hgt, hpin, BUTTON_PRESSED, BUTTON_RELEASED]
    have ih := rel_false_phase d hmod k (t+1) (by omega) (by omega)
    simp [relRunScen, hstep, ih, List.replicate_succ]

lemma emitH_comp : ∀ s ∈ statesH, ∀ p, p < 4 →
    ((stepH s p &&& 0x30 ≠ DIR_NONE) ↔ (nib s, p) ∈ compH) := by decide

lemma emitF_comp : ∀ s ∈ statesF, ∀ p, p < 4 →
    ((stepF s p &&& 0x30 ≠ DIR_NONE) ↔ (nib s, p) ∈ compF) := by decide

lemma illegalH_reset : ∀ s ∈ statesH, ∀ p, p < 4 → (nib s, p) ∉ legalH →
    stepH s p &&& 0x30 = DIR_NONE ∧ progH (nib (stepH s p)) = 0 ∧
    nib (stepH s p) ∈ [R_START, R_START_M] := by decide

lemma illegalF_reset : ∀ s ∈ statesF, ∀ p, p < 4 → (nib s, p) ∉ legalF →
    stepF s p &&& 0x30 = DIR_NONE ∧
    (progF (nib (stepF s p)) < progF (nib s) ∨ nib (stepF s p) = R_START) := by decide

lemma traceH_from_start (l : List Nat) (hl : ∀ p ∈ l, p < 4) :
    List.Sublist (canonChainH (nib (runH R_START l))) (traceH R_START l) := by
  simpa using traceH_inv l R_START [] hl (by decide)

lemma traceF_from_start (l : List Nat) (hl : ∀ p ∈ l, p < 4) :
    List.Sublist (canonChainF (nib (runF R_START l))) (traceF R_START l) := by
  simpa using traceF_inv l R_START [] hl (by decide)

lemma boundsH : ∀ s ∈ statesH, nib s < ttableH.length ∧
    ∀ p, p < 4 → p < (ttableH.getD (nib s) []).length ∧
    nib (stepH s p) < ttableH.length := by decide

lemma boundsF : ∀ s ∈ statesF, nib s < ttableF.length ∧
    ∀ p, p < 4 → p < (ttableF.getD (nib s) []).length ∧
    nib (stepF s p) < ttableF.length := by decide

/-- Claim C1: from the neutral state `R_START`, the canonical sample sequence
00,10,11,01,00 (pinstates 0,2,3,1,0) yields exactly one Clockwise event and
no CounterClockwise event in full-step mode, and exactly two Clockwise events
(one when sample 11 is applied, one when sample 00 is applied) in half-step
mode; the mirror sequence 00,01,11,10,00 (pinstates 0,1,3,2,0) yields the
same counts of CounterClockwise events and no Clockwise event. -/
theorem c1_theorem :
    outputsF R_START [0, 2, 3, 1, 0] = [DIR_NONE, DIR_NONE, DIR_NONE, DIR_NONE, DIR_CW] ∧
    (outputsF R_START [0, 2, 3, 1, 0]).count DIR_CW = 1 ∧
    (outputsF R_START [0, 2, 3, 1, 0]).count DIR_CCW = 0 ∧
    outputsH R_START [0, 2, 3, 1, 0] = [DIR_NONE, DIR_NONE, DIR_CW, DIR_NONE, DIR_CW] ∧
    (outputsH R_START [0, 2, 3, 1, 0]).count DIR_CW = 2 ∧
    (outputsH R_START [0, 2, 3, 1, 0]).count DIR_CCW = 0 ∧
    outputsF R_START [0, 1, 3, 2, 0] = [DIR_NONE, DIR_NONE, DIR_NONE, DIR_NONE, DIR_CCW] ∧
    (outputsF R_START [0, 1, 3, 2, 0]).count DIR_CCW = 1 ∧
    (outputsF R_START [0, 1, 3, 2, 0]).count DIR_CW = 0 ∧
    outputsH R_START [0, 1, 3, 2, 0] = [DIR_NONE, DIR_NONE, DIR_CCW, DIR_NONE, DIR_CCW] ∧
    (outputsH R_START [0, 1, 3, 2, 0]).count DIR_CCW = 2 ∧
    (outputsH R_START [0, 1, 3, 2, 0]).count DIR_CW = 0 := by decide

/-- Claim C2: a direction is returned only at the canonical completing
(state, sample) pairs (`compH`/`compF`), and only after the canonical chain
of intermediate states was traversed in order (the chain is an in-order
subsequence of the visited-state trace); every illegal jump returns
`DIR_NONE` and routes the state back toward neutral (in half-step mode
directly to one of the two settled states; in full-step mode the progress
measure strictly decreases or the state is already back at `R_START`). -/
theorem c2_theorem :
    (∀ s ∈ statesH, ∀ p, p < 4 →
      ((stepH s p &&& 0x30 ≠ DIR_NONE) ↔ (nib s, p) ∈ compH)) ∧
    (∀ s ∈ statesH, ∀ p, p < 4 → (nib s, p) ∉ legalH →
      stepH s p &&& 0x30 = DIR_NONE ∧ progH (nib (stepH s p)) = 0 ∧
      nib (stepH s p) ∈ [R_START, R_START_M]) ∧
    (∀ l : List Nat, (∀ p ∈ l, p < 4) →
      List.Sublist (canonChainH (nib (runH R_START l))) (traceH R_START l)) ∧
    (∀ s ∈ statesF, ∀ p, p < 4 →
      ((stepF s p &&& 0x30 ≠ DIR_NONE) ↔ (nib s, p) ∈ compF)) ∧
    (∀ s ∈ statesF, ∀ p, p < 4 → (nib s, p) ∉ legalF →
      stepF s p &&& 0x30 = DIR_NONE ∧
      (progF (nib (stepF s p)) < progF (nib s) ∨ nib (stepF s p) = R_START)) ∧
    (∀ l : List Nat, (∀ p ∈ l, p < 4) →
      List.Sublist (canonChainF (nib (runF R_START l))) (traceF R_START l)) ∧
    (∀ (l : List Nat) (p : Nat), (∀ x ∈ l, x < 4) → p < 4 →
      stepH (runH R_START l) p &&& 0x30 ≠ DIR_NONE →
      (nib (runH R_START l), p) ∈ compH ∧
      List.Sublist (canonChainH (nib (runH R_START l))) (traceH R_START l)) ∧
    (∀ (l : List Nat) (p : Nat), (∀ x ∈ l, x < 4) → p < 4 →
      stepF (runF R_START l) p &&& 0x30 ≠ DIR_NONE →
      (nib (runF R_START l), p) ∈ compF ∧
      List.Sublist (canonChainF (nib (runF R_START l))) (traceF R_START l)) :=
  ⟨emitH_comp, illegalH_reset, traceH_from_start, emitF_comp, illegalF_reset,
   traceF_from_start,
   fun l p hl hp hne =>
     ⟨(emitH_comp _ (runH_mem l hl) p hp).mp hne, traceH_from_start l hl⟩,
   fun l p hl hp hne =>
     ⟨(emitF_comp _ (runF_mem l hl) p hp).mp hne, traceF_from_start l hl⟩⟩

/-- Witness for C2: the illegal jump 00→11 from neutral returns `DIR_NONE`
and lands on a settled state, and the half-step Clockwise emission after the
in-order samples 00,10 at sample 11 has the canonical chain embedded in the
visited trace. -/
theorem c2_witness :
    (stepH 0 3 &&& 0x30 = DIR_NONE ∧ progH (nib (stepH 0 3)) = 0 ∧
      nib (stepH 0 3) ∈ [R_START, R_START_M]) ∧
    ((nib (runH R_START [0, 2]), 3) ∈ compH ∧
      List.Sublist (canonChainH (nib (runH R_START [0, 2]))) (traceH R_START [0, 2])) :=
  ⟨c2_theorem.2.1 0 (by decide) 3 (by decide) (by decide),
   c2_theorem.2.2.2.2.2.2.1 [0, 2] 3 (by decide) (by decide) (by decide)⟩

/-- Counterexample to C3 as stated: with holdThresholdMs = 2 and the line
closed from t=0, the tick at t=2 is the first with elapsed ≥ 2, yet
`buttonPressedHeld` still returns false there; the single true comes one
tick later, at t=3 (elapsed = 3 > 2). -/
theorem c3_counterexample :
    (heldRunLow 2 4 0 ⟨BUTTON_RESET, 0⟩).1 = [false, false, false, true] ∧
    (heldRunLow 2 4 0 ⟨BUTTON_RESET, 0⟩).1.getD 2 true = false ∧ 2 - 0 ≥ 2 := by decide

/-- Claim C3 (amended): with `buttonState` starting at Reset and the line
closed continuously from t=0, ticking once per millisecond,
`buttonPressedHeld thr` returns false on every tick while elapsed ≤ thr,
returns true exactly once at t = thr+1 (the first tick with elapsed
strictly greater than thr), resetting `buttonState` to Reset, and returns
false again on the next tick even though the line is still closed. -/
theorem c3_theorem (thr : Nat) (hthr : thr < 32768) :
    heldRunLow thr (thr+2) 0 ⟨BUTTON_RESET, 0⟩ =
      (List.replicate (thr+1) false ++ [true], ⟨BUTTON_RESET, 0⟩) ∧
    heldRunLow thr (thr+3) 0 ⟨BUTTON_RESET, 0⟩ =
      (List.replicate (thr+1) false ++ [true, false], ⟨BUTTON_PRESSED, thr+2⟩) := by
  have hM : thr + 2 < M32 := by simp only [M32]; omega
  have h0 : buttonPressedHeld thr false 0 ⟨BUTTON_RESET, 0⟩ = (false, ⟨BUTTON_PRESSED, 0⟩) := by
    simp [buttonPressedHeld, BUTTON_RESET, BUTTON_PRESSED]
  have h1 : heldRunLow thr 1 0 ⟨BUTTON_RESET, 0⟩ = ([false], ⟨BUTTON_PRESSED, 0⟩) := by
    simp [heldRunLow, h0]
  have hmid : heldRunLow thr thr 1 ⟨BUTTON_PRESSED, 0⟩ =
      (List.replicate thr false, ⟨BUTTON_PRESSED, 0⟩) :=
    held_false_phase thr 0 (by omega) thr 1 (by omega) (by omega)
  have hw : wsub (thr+1) 0 = thr+1 := by
    simpa using wsub_sub_of_le (Nat.zero_le _) (show thr+1 < M32 by omega)
  have hcond : thr + 1 > thr := by omega
  have hfire : buttonPressedHeld thr false (thr+1) ⟨BUTTON_PRESSED, 0⟩ =
      (true, ⟨BUTTON_RESET, 0⟩) := by
    simp [buttonPressedHeld, hw, hcond, BUTTON_PRESSED, BUTTON_RESET]
  have hpost : buttonPressedHeld thr false (thr+2) ⟨BUTTON_RESET, 0⟩ =
      (false, ⟨BUTTON_PRESSED, thr+2⟩) := by
    simp [buttonPressedHeld, BUTTON_RESET, BUTTON_PRESSED]
  have htail2 : heldRunLow thr (thr+1) 1 ⟨BUTTON_PRESSED, 0⟩ =
      (List.replicate thr false ++ [true], ⟨BUTTON_RESET, 0⟩) := by
    rw [heldRunLow_add thr thr 1 1, hmid]
    rw [show (1 : Nat) + thr = thr + 1 from by omega]
    simp [heldRunLow, hfire]
  have htail3 : heldRunLow thr (thr+2) 1 ⟨BUTTON_PRESSED, 0⟩ =
      (List.replicate thr false ++ [true, false], ⟨BUTTON_PRESSED, thr+2⟩) := by
    rw [heldRunLow_add thr thr 2 1, hmid]
    rw [show (1 : Nat) + thr = thr + 1 from by omega]
    simp [heldRunLow, hfire, hpost]
  constructor
  · rw [show thr+2 = 1 + (thr+1) from by omega, heldRunLow_add thr 1 (thr+1) 0, h1]
    rw [show (0 : Nat) + 1 = 1 from rfl, htail2]
    simp [List.replicate_succ]
  · rw [show thr+3 = 1 + (thr+2) from by omega, heldRunLow_add thr 1 (thr+2) 0, h1]
    rw [show (0 : Nat) + 1 = 1 from rfl, htail3]
    simp [List.replicate_succ]

/-- Witness for C3 at holdThresholdMs = 2. -/
theorem c3_witness :
    heldRunLow 2 4 0 ⟨BUTTON_RESET, 0⟩ =
      (List.replicate 3 false ++ [true], ⟨BUTTON_RESET, 0⟩) ∧
    heldRunLow 2 5 0 ⟨BUTTON_RESET, 0⟩ =
      (List.replicate 3 false ++ [true, false], ⟨BUTTON_PRESSED, 4⟩) :=
  c3_theorem 2 (by decide)

/-- Claim C4: with `buttonState` starting at Reset, the line closed (low)
from t=0 through t=d and open (high) from t=d+1 on, `buttonPressedReleased d`
ticked once per millisecond returns false on every call up to and including
t=d, returns true at t=d+1 with `buttonState` equal to Reset immediately
after that call, and returns false on all subsequent calls until a new
press begins. -/
theorem c4_theorem (d : Nat) (hd : d < 32768) :
    relRunScen d (d+2) 0 ⟨BUTTON_RESET, 0⟩ =
      (List.replicate (d+1) false ++ [true], ⟨BUTTON_RESET, 0⟩) ∧
    relRunScen d (d+3) 0 ⟨BUTTON_RESET, 0⟩ =
      (List.replicate (d+1) false ++ [true, false], ⟨BUTTON_RESET, 0⟩) ∧
    (∀ t, buttonPressedReleased d true t ⟨BUTTON_RESET, 0⟩ = (false, ⟨BUTTON_RESET, 0⟩)) := by
  have hM : d + 2 < M32 := by simp only [M32]; omega
  have h0 : buttonPressedReleased d false 0 ⟨BUTTON_RESET, 0⟩ =
      (false, ⟨BUTTON_PRESSED, 0⟩) := by
    simp [buttonPressedReleased, BUTTON_RESET, BUTTON_PRESSED, BUTTON_RELEASED]
  have hpin0 : ¬ (d < 0) := by omega
  have h1 : relRunScen d 1 0 ⟨BUTTON_RESET, 0⟩ = ([false], ⟨BUTTON_PRESSED, 0⟩) := by
    simp [relRunScen, hpin0, h0]
  have hmid : relRunScen d d 1 ⟨BUTTON_PRESSED, 0⟩ =
      (List.replicate d false, ⟨BUTTON_PRESSED, 0⟩) :=
    rel_false_phase d (by omega) d 1 (by omega) (by omega)
  have hw : wsub (d+1) 0 = d+1 := by
    simpa using wsub_sub_of_le (Nat.zero_le _) (show d+1 < M32 by omega)
  have hcond : d + 1 > d := by omega
  have hfire : buttonPressedReleased d true (d+1) ⟨BUTTON_PRESSED, 0⟩ =
      (true, ⟨BUTTON_RESET, 0⟩) := by
    simp [buttonPressedReleased, hw, hcond, BUTTON_PRESSED, BUTTON_RELEASED, BUTTON_RESET]
  have hpost : ∀ t, buttonPressedReleased d true t ⟨BUTTON_RESET, 0⟩ =
      (false, ⟨BUTTON_RESET, 0⟩) := by
    intro t
    simp [buttonPressedReleased, BUTTON_RESET, BUTTON_PRESSED, BUTTON_RELEASED]
  have hpin1 : d < d + 1 := by omega
  have hpin2 : d < d + 1 + 1 := by omega
  have htail2 : relRunScen d (d+1) 1 ⟨BUTTON_PRESSED, 0⟩ =
      (List.replicate d false ++ [true], ⟨BUTTON_RESET, 0⟩) := by
    rw [relRunScen_add d d 1 1, hmid]
    rw [show (1 : Nat) + d = d + 1 from by omega]
    simp [relRunScen, hpin1, hfire]
  have htail3 : relRunScen d (d+2) 1 ⟨BUTTON_PRESSED, 0⟩ =
      (List.replicate d false ++ [true, false], ⟨BUTTON_RESET, 0⟩) := by
    rw [relRunScen_add d d 2 1, hmid]
    rw [show (1 : Nat) + d = d + 1 from by omega]
    simp [relRunScen, hpin1, hpin2, hfire, hpost]
  refine ⟨?_, ?_, hpost⟩
  · rw [show d+2 = 1 + (d+1) from by omega, relRunScen_add d 1 (d+1) 0, h1]
    rw [show (0 : Nat) + 1 = 1 from rfl, htail2]
    simp [List.replicate_succ]
  · rw [show d+3 = 1 + (d+2) from by omega, relRunScen_add d 1 (d+2) 0, h1]
    rw [show (0 : Nat) + 1 = 1 from rfl, htail3]
    simp [List.replicate_succ]

/-- Witness for C4 at debounceDelayMs = 3 (with one extra open tick at
t = 7). -/
theorem c4_witness :
    relRunScen 3 5 0 ⟨BUTTON_RESET, 0⟩ =
      (List.replicate 4 false ++ [true], ⟨BUTTON_RESET, 0⟩) ∧
    relRunScen 3 6 0 ⟨BUTTON_RESET, 0⟩ =
      (List.replicate 4 false ++ [true, false], ⟨BUTTON_RESET, 0⟩) ∧
    buttonPressedReleased 3 true 7 ⟨BUTTON_RESET, 0⟩ = (false, ⟨BUTTON_RESET, 0⟩) :=
  ⟨(c4_theorem 3 (by decide)).1, (c4_theorem 3 (by decide)).2.1,
   (c4_theorem 3 (by decide)).2.2 7⟩

/-- Claim C5: for every reachable decoder state `s` and every 2-bit pin
sample `p`, the lookup `ttable[s & 0xf][p]` is in bounds: the low nibble of
the state is a valid row index (< 6 rows in half-step mode, < 7 in
full-step mode), the sample indexes a valid column, and the looked-up entry
again has an in-range low nibble — the transition function is total over
reachable states. -/
theorem c5_theorem :
    (∀ s, ReachableH s → nib s < ttableH.length ∧
      ∀ p, p < 4 → p < (ttableH.getD (nib s) []).length ∧
      nib (stepH s p) < ttableH.length) ∧
    (∀ s, ReachableF s → nib s < ttableF.length ∧
      ∀ p, p < 4 → p < (ttableF.getD (nib s) []).length ∧
      nib (stepF s p) < ttableF.length) :=
  ⟨fun s hs => boundsH s (reachableH_mem hs),
   fun s hs => boundsF s (reachableF_mem hs)⟩

/-- Witness for C5 at the reachable half-step state `stepH (stepH R_START 2) 3`
(the `R_START_M ||| DIR_CW` entry) and the reachable full-step state
`stepF R_START 2`. -/
theorem c5_witness :
    (nib (stepH (stepH R_START 2) 3) < ttableH.length) ∧
    (3 < (ttableH.getD (nib (stepH (stepH R_START 2) 3)) []).length) ∧
    (nib (stepH (stepH (stepH R_START 2) 3) 3) < ttableH.length) ∧
    (nib (stepF R_START 2) < ttableF.length) := by
  have hr : ReachableH (stepH (stepH R_START 2) 3) :=
    ReachableH.step _ 3 (ReachableH.step _ 2 ReachableH.start (by decide)) (by decide)
  have hf : ReachableF (stepF R_START 2) :=
    ReachableF.step _ 2 ReachableF.start (by decide)
  exact ⟨(c5_theorem.1 _ hr).1, ((c5_theorem.1 _ hr).2 3 (by decide)).1,
    ((c5_theorem.1 _ hr).2 3 (by decide)).2, (c5_theorem.2 _ hf).1⟩

/-- Counterexample to C6 as stated: in both modes there is a reachable state
from which two successive `process` calls with the SAME pin sample change
the state on the second call.  Half-step: from `R_CCW_BEGIN_H` (reachable
via sample 01) a constant sample 10 gives `R_START` then `R_CW_BEGIN_H`.
Full-step: from `R_CW_FINAL` (reachable via 10,11,01) a constant sample 10
gives `R_START` then `R_CW_BEGIN_F`. -/
theorem c6_counterexample :
    stepH R_START 1 = R_CCW_BEGIN_H ∧
    stepH R_CCW_BEGIN_H 2 = R_START ∧
    stepH (stepH R_CCW_BEGIN_H 2) 2 = R_CW_BEGIN_H ∧
    stepH (stepH R_CCW_BEGIN_H 2) 2 ≠ stepH R_CCW_BEGIN_H 2 ∧
    stepF (stepF (stepF R_START 2) 3) 1 = R_CW_FINAL ∧
    stepF R_CW_FINAL 2 = R_START ∧
    stepF (stepF R_CW_FINAL 2) 2 = R_CW_BEGIN_F ∧
    stepF (stepF R_CW_FINAL 2) 2 ≠ stepF R_CW_FINAL 2 := by decide

/-- Claim C6 (amended): for every reachable state and repeated pin sample,
the second and every later `process` call returns `DIR_NONE` (no event is
ever emitted after the first call), and the state stops changing from the
third call on (the machine reaches a fixpoint after at most two identical
samples); the second call itself may still change the stored state, by
clearing direction bits or by moving a neutral state to a begin state. -/
theorem c6_theorem :
    (∀ s ∈ statesH, ∀ p, p < 4 →
      (processH (stepH s p) p).2 = DIR_NONE ∧
      stepH (stepH (stepH s p) p) p = stepH (stepH s p) p) ∧
    (∀ s ∈ statesF, ∀ p, p < 4 →
      (processF (stepF s p) p).2 = DIR_NONE ∧
      stepF (stepF (stepF s p) p) p = stepF (stepF s p) p) := by
  constructor <;> decide

/-- Witness for C6 at the counterexample states. -/
theorem c6_witness :
    ((processH (stepH R_CCW_BEGIN_H 2) 2).2 = DIR_NONE ∧
      stepH (stepH (stepH R_CCW_BEGIN_H 2) 2) 2 = stepH (stepH R_CCW_BEGIN_H 2) 2) ∧
    ((processF (stepF R_CW_FINAL 2) 2).2 = DIR_NONE ∧
      stepF (stepF (stepF R_CW_FINAL 2) 2) 2 = stepF (stepF R_CW_FINAL 2) 2) :=
  ⟨c6_theorem.1 R_CCW_BEGIN_H (by decide) 2 (by decide),
   c6_theorem.2 R_CW_FINAL (by decide) 2 (by decide)⟩

/-- Claim C7: if after a press is first observed (`buttonState` Reset when
the closed line is first sampled at time t0) the line opens again no later
than t0 + thr, then `buttonPressedHeld thr` returns false on every tick of
the press cycle, and on the tick where the open line is observed the state
is reset to Reset (the timer field keeps its last value) — a too-short
press never produces a held event. -/
theorem c7_theorem (thr t0 n u : Nat) (hn : 1 ≤ n) (hthr : n ≤ thr)
    (hM : t0 + thr < M32) :
    heldRunLow thr n t0 ⟨BUTTON_RESET, u⟩ = (List.replicate n false, ⟨BUTTON_PRESSED, t0⟩) ∧
    buttonPressedHeld thr true (t0 + n) ⟨BUTTON_PRESSED, t0⟩ = (false, ⟨BUTTON_RESET, t0⟩) := by
  obtain ⟨m, rfl⟩ : ∃ m, n = m + 1 := ⟨n - 1, by omega⟩
  have h0 : buttonPressedHeld thr false t0 ⟨BUTTON_RESET, u⟩ =
      (false, ⟨BUTTON_PRESSED, t0⟩) := by
    simp [buttonPressedHeld, BUTTON_RESET, BUTTON_PRESSED]
  have h1 : heldRunLow thr 1 t0 ⟨BUTTON_RESET, u⟩ = ([false], ⟨BUTTON_PRESSED, t0⟩) := by
    simp [heldRunLow, h0]
  have hmid : heldRunLow thr m (t0 + 1) ⟨BUTTON_PRESSED, t0⟩ =
      (List.replicate m false, ⟨BUTTON_PRESSED, t0⟩) :=
    held_false_phase thr t0 hM m (t0 + 1) (by omega) (by omega)
  constructor
  · rw [show m + 1 = 1 + m from by omega, heldRunLow_add thr 1 m t0, h1, List.replicate_add]
    simp [hmid]
  · simp [buttonPressedHeld, BUTTON_PRESSED, BUTTON_RESET]

/-- Witness for C7: threshold 5, press observed at t0 = 10, line open again
at t = 13 (3 closed ticks, 3 ≤ 5). -/
theorem c7_witness :
    heldRunLow 5 3 10 ⟨BUTTON_RESET, 7⟩ = (List.replicate 3 false, ⟨BUTTON_PRESSED, 10⟩) ∧
    buttonPressedHeld 5 true 13 ⟨BUTTON_PRESSED, 10⟩ = (false, ⟨BUTTON_RESET, 10⟩) :=
  c7_theorem 5 10 3 7 (by decide) (by decide) (by decide)

/-- Claim C8: every value returned by `process` (from a reachable state and
a 2-bit sample) equals the newly stored state masked with 0x30, and is
exactly one of `DIR_NONE`, `DIR_CW`, `DIR_CCW`; the two direction flags are
never both set. -/
theorem c8_theorem :
    (∀ s ∈ statesH, ∀ p, p < 4 →
      (processH s p).2 = (processH s p).1 &&& 0x30 ∧
      ((processH s p).2 = DIR_NONE ∨ (processH s p).2 = DIR_CW ∨
        (processH s p).2 = DIR_CCW) ∧
      ¬((processH s p).2 &&& DIR_CW ≠ 0 ∧ (processH s p).2 &&& DIR_CCW ≠ 0)) ∧
    (∀ s ∈ statesF, ∀ p, p < 4 →
      (processF s p).2 = (processF s p).1 &&& 0x30 ∧
      ((processF s p).2 = DIR_NONE ∨ (processF s p).2 = DIR_CW ∨
        (processF s p).2 = DIR_CCW) ∧
      ¬((processF s p).2 &&& DIR_CW ≠ 0 ∧ (processF s p).2 &&& DIR_CCW ≠ 0)) := by
  constructor <;> decide

/-- Witness for C8 at the two emitting lookups (half-step CW completion and
full-step CCW completion). -/
theorem c8_witness :
    ((processH 2 3).2 = (processH 2 3).1 &&& 0x30 ∧
      ((processH 2 3).2 = DIR_NONE ∨ (processH 2 3).2 = DIR_CW ∨
        (processH 2 3).2 = DIR_CCW) ∧
      ¬((processH 2 3).2 &&& DIR_CW ≠ 0 ∧ (processH 2 3).2 &&& DIR_CCW ≠ 0)) ∧
    ((processF 5 0).2 = (processF 5 0).1 &&& 0x30 ∧
      ((processF 5 0).2 = DIR_NONE ∨ (processF 5 0).2 = DIR_CW ∨
        (processF 5 0).2 = DIR_CCW) ∧
      ¬((processF 5 0).2 &&& DIR_CW ≠ 0 ∧ (processF 5 0).2 &&& DIR_CCW ≠ 0)) :=
  ⟨c8_theorem.1 2 (by decide) 3 (by decide), c8_theorem.2 5 (by decide) 0 (by decide)⟩

/-- Claim C9: `readButton` returns `BUTTON_PRESSED` exactly when the line
reads low (closed) and `BUTTON_RELEASED` exactly when it reads high (open),
and mutates nothing: the whole `Rotary` state is unchanged by the call. -/
theorem c9_theorem : ∀ (r : RotaryState) (pinHigh : Bool),
    (readButton r pinHigh).2 = r ∧
    ((readButton r pinHigh).1 = BUTTON_PRESSED ↔ pinHigh = false) ∧
    ((readButton r pinHigh).1 = BUTTON_RELEASED ↔ pinHigh = true) := by
  intro r pinHigh
  cases pinHigh <;> simp [readButton, BUTTON_PRESSED, BUTTON_RELEASED]

/-- Claim C10: the elapsed-time test computes `millis() - buttonTimer` in
unsigned 32-bit arithmetic, so for every press whose true elapsed time is
below 2^32 ms the comparison `elapsed > delay` is decided correctly even
when the millisecond counter wraps around between press (true time t0) and
check (true time t1); both button routines observe the correct verdict. -/
theorem c10_theorem (t0 t1 d : Nat) (h : t0 ≤ t1) (hd : t1 - t0 < M32) :
    wsub (t1 % M32) (t0 % M32) = t1 - t0 ∧
    ((wsub (t1 % M32) (t0 % M32) > d) ↔ t1 - t0 > d) ∧
    (buttonPressedHeld d false (t1 % M32) ⟨BUTTON_PRESSED, t0 % M32⟩).1 =
      decide (t1 - t0 > d) ∧
    (buttonPressedReleased d true (t1 % M32) ⟨BUTTON_PRESSED, t0 % M32⟩).1 =
      decide (t1 - t0 > d) := by
  have hw := wsub_wrap h hd
  refine ⟨hw, by rw [hw], ?_, ?_⟩
  · by_cases hgt : t1 - t0 > d
    · simp [buttonPressedHeld, hw, hgt, BUTTON_PRESSED, BUTTON_RESET]
    · simp [buttonPressedHeld, hw, hgt, BUTTON_PRESSED, BUTTON_RESET]
  · by_cases hgt : t1 - t0 > d
    · simp [buttonPressedReleased, hw, hgt, BUTTON_PRESSED, BUTTON_RELEASED]
    · simp [buttonPressedReleased, hw, hgt, BUTTON_PRESSED, BUTTON_RELEASED]

/-- Witness for C10: the press is stamped at raw time 4294967000 (just
below the 2^32 wrap), the check happens at true time 4294967300, whose
32-bit counter value has wrapped to 4; the computed elapsed time is still
300 and the comparison against delay 250 is decided correctly. -/
theorem c10_witness :
    wsub (4294967300 % M32) (4294967000 % M32) = 300 ∧
    ((wsub (4294967300 % M32) (4294967000 % M32) > 250) ↔ (300 : Nat) > 250) ∧
    (buttonPressedHeld 250 false (4294967300 % M32)
      ⟨BUTTON_PRESSED, 4294967000 % M32⟩).1 = decide ((300 : Nat) > 250) ∧
    (buttonPressedReleased 250 true (4294967300 % M32)
      ⟨BUTTON_PRESSED, 4294967000 % M32⟩).1 = decide ((300 : Nat) > 250) :=
  c10_theorem 4294967000 4294967300 250 (by decide) (by decide)

/-- Witness for C9 at a concrete state and both line levels. -/
theorem c9_witness :
    ((readButton ⟨0x13, 0x1, 42⟩ true).2 = ⟨0x13, 0x1, 42⟩ ∧
      ((readButton ⟨0x13, 0x1, 42⟩ true).1 = BUTTON_PRESSED ↔ true = false) ∧
      ((readButton ⟨0x13, 0x1, 42⟩ true).1 = BUTTON_RELEASED ↔ true = true)) ∧
    ((readButton ⟨0x13, 0x1, 42⟩ false).2 = ⟨0x13, 0x1, 42⟩ ∧
      ((readButton ⟨0x13, 0x1, 42⟩ false).1 = BUTTON_PRESSED ↔ false = false) ∧
      ((readButton ⟨0x13, 0x1, 42⟩ false).1 = BUTTON_RELEASED ↔ false = true)) :=
  ⟨c9_theorem ⟨0x13, 0x1, 42⟩ true, c9_theorem ⟨0x13, 0x1, 42⟩ false⟩
